import Mathlib

/-!
Verification of the email-automation backend core: the request-authorization
middleware chain (requireUser, requireOwnershipOrRole, requireConnectedGoogle),
the email controller's filter normalization and error classification, and the
Gmail service's query synthesis, header parsing and body extraction.

Each definition is a shallow embedding of the corresponding TypeScript function,
translated statement by statement.  JavaScript truthiness is made explicit:
`undefined`/missing becomes `Option.none`, and the empty string (falsy in JS)
is checked explicitly wherever the source relies on truthiness.

The file is organized as all definitions first, then all theorems.
-/

deriving instance DecidableEq for Except

/-! ## Data model: roles and users -/

/-- The `Role` union type from `user.model.ts`: `'USER' | 'ADMIN'`. -/
inductive Role : Type where
  | user
  | admin
deriving DecidableEq, Repr

/-- The slice of the Mongoose `IUser` document used by the middleware and the
Gmail service.  `id` is the string form of the Mongo `_id`
(`user._id.toString()` in the source).  The Google token fields are optional
schema paths, absent (`none`) when the account is not connected; an empty
string token is falsy in JS and is distinguished from `none` in the embedding
so the source's truthiness checks can be mirrored exactly. -/
structure IUser where
  id : String
  email : String
  roles : List Role
  googleAccessToken : Option String
  googleRefreshToken : Option String
deriving DecidableEq, Repr

/-! ## Small JS string helpers -/

/-- Whether `needle` occurs as a contiguous run inside the character list. -/
def charsContains (needle : List Char) : List Char → Bool
  | [] => needle.isPrefixOf ([] : List Char)
  | c :: cs => needle.isPrefixOf (c :: cs) || charsContains needle cs

/-- JS `s.includes(sub)`: substring containment, case-sensitive. -/
def strContains (s sub : String) : Bool :=
  charsContains sub.toList s.toList

/-- Drop leading whitespace characters. -/
def dropWhitespace : List Char → List Char
  | [] => []
  | c :: cs => if c.isWhitespace then dropWhitespace cs else c :: cs

/-- The longest prefix of decimal digits. -/
def leadingDigits : List Char → List Char
  | [] => []
  | c :: cs => if c.isDigit then c :: leadingDigits cs else []

/-- Value of a list of decimal digits. -/
def digitsVal (cs : List Char) : Nat :=
  cs.foldl (fun a c => a * 10 + (c.toNat - 48)) 0

/-- JS `parseInt(s, 10)`: skip leading whitespace, read an optional sign and
then the longest prefix of decimal digits; `NaN` (here `none`) if there is no
digit. -/
def jsParseInt (s : String) : Option Int :=
  match dropWhitespace s.toList with
  | '-' :: cs =>
    let digits := leadingDigits cs
    if digits.isEmpty then none else some (-(digitsVal digits : Int))
  | '+' :: cs =>
    let digits := leadingDigits cs
    if digits.isEmpty then none else some ((digitsVal digits : Int))
  | cs =>
    let digits := leadingDigits cs
    if digits.isEmpty then none else some ((digitsVal digits : Int))

/-- JS `String(n).padStart(2, '0')` for the query date fields. -/
def padStart2 (s : String) : String :=
  if 2 ≤ s.length then s
  else if s.length = 1 then "0" ++ s
  else "00"

/-! ## Middleware gates

An Express middleware either calls `next()` (continue the chain) or writes an
error response and returns.  The error bodies in the middleware all have shape
`{success:false, message:..}` with an optional machine-readable `code`. -/

/-- A middleware JSON error body: `success`, `message`, optional `code`. -/
structure AuthBody where
  success : Bool
  message : String
  code : Option String
deriving DecidableEq, Repr

/-- Outcome of one middleware gate: continue (`next()`) or deny with an HTTP
status and a JSON body. -/
inductive GateResult : Type where
  | next
  | deny (status : Nat) (body : AuthBody)
deriving DecidableEq, Repr

/-- The request state a gate can observe: the session-attached user (if any),
the `req.isAuthenticated()` flag, and the route parameters object
(`req.params`), modelled as an association list. -/
structure MWRequest where
  user : Option IUser
  isAuthenticated : Bool
  params : List (String × String)
deriving DecidableEq, Repr

/-- JS property access on the `req.params` object: the value at the key, or
`undefined` (`none`) when the key is absent. -/
def lookupParam (ps : List (String × String)) (k : String) : Option String :=
  (ps.find? (fun p => p.1 = k)).map (fun p => p.2)

/-- `requireUser` from `middleware/requireUser.ts`: denies 401
`{success:false, message:'Authentication required'}` when
`!req.isAuthenticated() || !req.user`, otherwise calls `next()`. -/
def requireUser (req : MWRequest) : GateResult :=
  if !req.isAuthenticated || req.user.isNone then
    .deny 401 ⟨false, "Authentication required", none⟩
  else
    .next

/-- `requireOwnershipOrRole(paramName, ...roles)` from
`middleware/requireOwnershipOrRole.ts`.  Checks, in source order: user
presence (401), presence of the route parameter (`!resourceUserId` is also
true for the empty string, hence the explicit `v = ""` case), then
`isOwner || hasRequiredRole` (allow) and otherwise 403. -/
def requireOwnershipOrRole (paramName : String) (roles : List Role)
    (req : MWRequest) : GateResult :=
  match req.user with
  | none => .deny 401 ⟨false, "Authentication required", none⟩
  | some user =>
    match lookupParam req.params paramName with
    | none => .deny 400 ⟨false, "Invalid request", none⟩
    | some v =>
      if v = "" then .deny 400 ⟨false, "Invalid request", none⟩
      else
        let isOwner := user.id = v
        let hasRequiredRole := user.roles.any (fun r => roles.contains r)
        if isOwner ∨ hasRequiredRole then .next
        else .deny 403 ⟨false, "Access denied", none⟩

/-- `requireConnectedGoogle` from `middleware/requireConnectedGoogle.ts`:
401 without a user, 403 `GOOGLE_NOT_CONNECTED` when `!user.googleAccessToken`
(absent or empty token), otherwise `next()`. -/
def requireConnectedGoogle (req : MWRequest) : GateResult :=
  match req.user with
  | none => .deny 401 ⟨false, "Authentication required", none⟩
  | some user =>
    match user.googleAccessToken with
    | none =>
      .deny 403 ⟨false,
        "Google account connection required. Please connect your Google account to access Gmail features.",
        some "GOOGLE_NOT_CONNECTED"⟩
    | some t =>
      if t = "" then
        .deny 403 ⟨false,
          "Google account connection required. Please connect your Google account to access Gmail features.",
          some "GOOGLE_NOT_CONNECTED"⟩
      else .next

/-- Express middleware composition as wired in `routes/auth.routes.ts`: the
gates run strictly left to right; a gate that responds (denies) never calls
`next()`, so no later gate runs.  The chain result is the first denial, or
`next` if every gate passed control through. -/
def runChain : List (MWRequest → GateResult) → MWRequest → GateResult
  | [], _ => .next
  | g :: gs, req =>
    match g req with
    | .next => runChain gs req
    | .deny s b => .deny s b

/-! ## Email controller: filter normalization (`email.controller.ts`, getEmails)

The controller validates the raw query parameters in source order (isRead,
timeRange, timeValue, maxResults, then the two cross-field checks) and either
responds 400 `{error: ..}` or builds an `EmailFilters` record. -/

/-- The controller's error responses, and the service error classification
responses: HTTP status plus the JSON body fields `error` and the optional
`message` and `code`. -/
structure ErrResponse where
  status : Nat
  error : String
  message : Option String
  code : Option String
deriving DecidableEq, Repr

/-- The `timeRange` union type from `gmail.service.ts`:
`'hours' | 'days' | 'weeks' | 'months'`. -/
inductive TimeRange : Type where
  | hours
  | days
  | weeks
  | months
deriving DecidableEq, Repr

/-- The `EmailFilters` interface from `gmail.service.ts`.  `timeValue` and
`maxResults` are stored by the controller only after being validated as
positive integers, hence `Nat`. -/
structure EmailFilters where
  isRead : Option Bool
  timeRange : Option TimeRange
  timeValue : Option Nat
  maxResults : Option Nat
deriving DecidableEq, Repr

/-- The raw `req.query` parameters consumed by `getEmails`; `none` is an
absent parameter, `some ""` a parameter present with an empty value. -/
structure RawEmailQuery where
  isRead : Option String
  timeRange : Option String
  timeValue : Option String
  maxResults : Option String
deriving DecidableEq, Repr

/-- The `timeRange` block of `getEmails`: runs only when `req.query.timeRange`
is truthy; an unrecognized value is a 400. -/
def parseTimeRangeParam (o : Option String) : Except ErrResponse (Option TimeRange) :=
  match o with
  | none => .ok none
  | some s =>
    if s = "" then .ok none
    else if s = "hours" then .ok (some .hours)
    else if s = "days" then .ok (some .days)
    else if s = "weeks" then .ok (some .weeks)
    else if s = "months" then .ok (some .months)
    else .error ⟨400, "Invalid timeRange. Must be one of: hours, days, weeks, months", none, none⟩

/-- The `timeValue` block of `getEmails`: runs only when the parameter is
truthy; `parseInt` yielding `NaN` or a non-positive number is a 400. -/
def parseTimeValueParam (o : Option String) : Except ErrResponse (Option Nat) :=
  match o with
  | none => .ok none
  | some s =>
    if s = "" then .ok none
    else
      match jsParseInt s with
      | none => .error ⟨400, "timeValue must be a positive number", none, none⟩
      | some n =>
        if n ≤ 0 then .error ⟨400, "timeValue must be a positive number", none, none⟩
        else .ok (some n.toNat)

/-- The `maxResults` block of `getEmails`: runs only when the parameter is
truthy; `NaN`, non-positive or above 500 is a 400. -/
def parseMaxResultsParam (o : Option String) : Except ErrResponse (Option Nat) :=
  match o with
  | none => .ok none
  | some s =>
    if s = "" then .ok none
    else
      match jsParseInt s with
      | none => .error ⟨400, "maxResults must be between 1 and 500", none, none⟩
      | some n =>
        if n ≤ 0 ∨ 500 < n then .error ⟨400, "maxResults must be between 1 and 500", none, none⟩
        else .ok (some n.toNat)

/-- The filter-building prefix of `getEmails` in `email.controller.ts`:
`filters.isRead = req.query.isRead === 'true'` whenever the parameter is
present (not `undefined`), then the three validated blocks in source order,
then the two cross-field checks. -/
def getEmailsParseFilters (q : RawEmailQuery) : Except ErrResponse EmailFilters :=
  let isReadF : Option Bool := q.isRead.map (fun s => s == "true")
  match parseTimeRangeParam q.timeRange with
  | .error e => .error e
  | .ok timeRangeF =>
    match parseTimeValueParam q.timeValue with
    | .error e => .error e
    | .ok timeValueF =>
      match parseMaxResultsParam q.maxResults with
      | .error e => .error e
      | .ok maxResultsF =>
        if timeRangeF.isSome ∧ timeValueF.isNone then
          .error ⟨400, "timeValue is required when timeRange is specified", none, none⟩
        else if timeValueF.isSome ∧ timeRangeF.isNone then
          .error ⟨400, "timeRange is required when timeValue is specified", none, none⟩
        else
          .ok ⟨isReadF, timeRangeF, timeValueF, maxResultsF⟩

/-! ## Email controller: error classification

`gmail.service.ts` wraps any failure as
`Failed to fetch emails: <msg>` / `Failed to fetch email: <msg>`; the
controller's catch blocks classify the wrapped message by substring
(JS `error.message.includes(..)`, embedded as `strContains`). -/

/-- Error rewrapping in `gmailService.getEmails`. -/
def wrapGetEmailsError (msg : String) : String :=
  "Failed to fetch emails: " ++ msg

/-- Error rewrapping in `gmailService.getEmailById`. -/
def wrapGetEmailByIdError (msg : String) : String :=
  "Failed to fetch email: " ++ msg

/-- The catch block of the `getEmails` controller: `invalid_grant`/`Token`
substring means 401 AUTH_EXPIRED, anything else a 500 carrying the message. -/
def getEmailsCatch (msg : String) : ErrResponse :=
  if strContains msg "invalid_grant" || strContains msg "Token" then
    ⟨401, "Google authentication expired. Please re-authenticate.", none, some "AUTH_EXPIRED"⟩
  else
    ⟨500, "Failed to fetch emails", some msg, none⟩

/-- The catch block of the `getEmailById` controller: the AUTH_EXPIRED test
first, then the `Not Found`/`404` test (404 carrying the message), else 500. -/
def getEmailByIdCatch (msg : String) : ErrResponse :=
  if strContains msg "invalid_grant" || strContains msg "Token" then
    ⟨401, "Google authentication expired. Please re-authenticate.", none, some "AUTH_EXPIRED"⟩
  else if strContains msg "Not Found" || strContains msg "404" then
    ⟨404, "Email not found", some msg, none⟩
  else
    ⟨500, "Failed to fetch email", some msg, none⟩

/-- End-to-end error path of `GET /emails/:id`: the Gmail API call throws
with `remoteMsg`, the service rewraps it, the controller classifies the
wrapped message. -/
def getEmailByIdRemoteErrorResponse (remoteMsg : String) : ErrResponse :=
  getEmailByIdCatch (wrapGetEmailByIdError remoteMsg)

/-- End-to-end error path of `GET /emails`. -/
def getEmailsRemoteErrorResponse (remoteMsg : String) : ErrResponse :=
  getEmailsCatch (wrapGetEmailsError remoteMsg)

/-! ## Gmail service: query synthesis (`gmail.service.ts`, buildQuery)

`buildQuery` reads the clock (`new Date()`) and formats the cutoff with the
local-timezone accessors `getFullYear`/`getMonth`/`getDate`.  The embedding
takes the current epoch milliseconds and the runtime's epoch-to-local-calendar
conversion as parameters. -/

/-- A local calendar date as produced by the JS `Date` accessors
(`getFullYear()`, `getMonth()+1`, `getDate()`). -/
structure SimpleDate where
  year : Nat
  month : Nat
  day : Nat
deriving DecidableEq, Repr

/-- `buildQuery` from `gmail.service.ts`: pushes `is:read`/`is:unread` when
`isRead` is set, then, when `timeRange` and `timeValue` are both truthy
(`timeValue = 0` is falsy in JS, hence the explicit guard), an
`after:YYYY/MM/DD` clause for the local calendar date of
`now − timeValue × unit` milliseconds, and joins the clauses with spaces.
The `switch` default branch of the source is unreachable for the typed
`timeRange` union and is not represented. -/
def buildQuery (localDate : Int → SimpleDate) (nowMs : Int) (f : EmailFilters) : String :=
  let queryParts : List String :=
    match f.isRead with
    | some b => [if b then "is:read" else "is:unread"]
    | none => []
  let queryParts :=
    match f.timeRange, f.timeValue with
    | some r, some v =>
      if v = 0 then queryParts
      else
        let unitMs : Int :=
          match r with
          | .hours => 60 * 60 * 1000
          | .days => 24 * 60 * 60 * 1000
          | .weeks => 7 * 24 * 60 * 60 * 1000
          | .months => 30 * 24 * 60 * 60 * 1000
        let d := localDate (nowMs - (v : Int) * unitMs)
        queryParts ++
          ["after:" ++ toString d.year ++ "/" ++ padStart2 (toString d.month) ++
            "/" ++ padStart2 (toString d.day)]
    | _, _ => queryParts
  String.intercalate " " queryParts

/-- The read-state clause of the query, as the spec words it. -/
def specReadClause (f : EmailFilters) : List String :=
  match f.isRead with
  | some true => ["is:read"]
  | some false => ["is:unread"]
  | none => []

/-- Unit durations in seconds, as the spec words them: hours = 3600 s,
days = 24 h, weeks = 7 days, months = 30 days. -/
def specUnitDurationSec : TimeRange → Nat
  | .hours => 3600
  | .days => 24 * 3600
  | .weeks => 7 * 24 * 3600
  | .months => 30 * 24 * 3600

/-- The time-window clause of the query, as the spec words it:
`after:YYYY/MM/DD` at the local calendar date of the cutoff instant
`now − count × unit-duration`. -/
def specTimeClause (localDate : Int → SimpleDate) (nowMs : Int) (f : EmailFilters) :
    List String :=
  match f.timeRange, f.timeValue with
  | some r, some v =>
    let d := localDate (nowMs - (v : Int) * (specUnitDurationSec r : Int) * 1000)
    ["after:" ++ toString d.year ++ "/" ++ padStart2 (toString d.month) ++
      "/" ++ padStart2 (toString d.day)]
  | _, _ => []

/-! ## Gmail service: header extraction (`gmail.service.ts`, parseHeaders)

JS string primitives used by the source (`toLowerCase`, `split(',')`,
`trim`) are embedded character-list-wise; `new Date(s)` is embedded through
a `parseDate` parameter (`none` = the JS Invalid Date), and `new Date()`
through the current-time parameter. -/

/-- JS `toLowerCase` on one character (ASCII range, which covers header
names). -/
def jsCharToLower (c : Char) : Char :=
  if 65 ≤ c.toNat ∧ c.toNat ≤ 90 then Char.ofNat (c.toNat + 32) else c

/-- JS `s.toLowerCase()`. -/
def jsToLower (s : String) : String :=
  (s.toList.map jsCharToLower).asString

/-- Split a character list at every occurrence of `sep`. -/
def splitOnChar (sep : Char) : List Char → List (List Char)
  | [] => [[]]
  | c :: cs =>
    if c = sep then [] :: splitOnChar sep cs
    else
      match splitOnChar sep cs with
      | [] => [[c]]
      | g :: gs => (c :: g) :: gs

/-- JS `s.split(',')`; on the empty string this yields `[""]`. -/
def jsSplitComma (s : String) : List String :=
  (splitOnChar ',' s.toList).map List.asString

/-- JS `s.trim()`: strip whitespace from both ends. -/
def jsTrim (s : String) : String :=
  ((dropWhitespace ((dropWhitespace s.toList).reverse)).reverse).asString

/-- A raw Gmail header pair; `value` is optional because the source guards
it with `header?.value`. -/
structure EmailHeader where
  name : String
  value : Option String
deriving DecidableEq, Repr

/-- A JS `Date` object: a valid epoch-milliseconds instant or the Invalid
Date produced by `new Date(<unparsable>)`. -/
inductive JSDate : Type where
  | valid (ms : Int)
  | invalid
deriving DecidableEq, Repr

/-- The record returned by `parseHeaders`. -/
structure ParsedHeaders where
  subject : String
  fromAddr : String
  toAddrs : List String
  date : JSDate
deriving DecidableEq, Repr

/-- The inner `getHeader` of `parseHeaders`: first header whose lowercased
name matches the lowercased query, then `header?.value || ''`. -/
def getHeader (headers : List EmailHeader) (name : String) : String :=
  match headers.find? (fun h => jsToLower h.name = jsToLower name) with
  | some h => h.value.getD ""
  | none => ""

/-- `parseHeaders` from `gmail.service.ts`: Subject and From via
`getHeader`, To split on commas and trimmed, and
`date = dateStr ? new Date(dateStr) : new Date()`. -/
def parseHeaders (parseDate : String → Option Int) (nowMs : Int)
    (headers : List EmailHeader) : ParsedHeaders :=
  let subject := getHeader headers "Subject"
  let fromAddr := getHeader headers "From"
  let toAddrs := (jsSplitComma (getHeader headers "To")).map jsTrim
  let dateStr := getHeader headers "Date"
  let date :=
    if dateStr = "" then JSDate.valid nowMs
    else
      match parseDate dateStr with
      | some t => JSDate.valid t
      | none => JSDate.invalid
  ⟨subject, fromAddr, toAddrs, date⟩

/-! ## Gmail service: body extraction (`gmail.service.ts`, extractBody)

A Gmail payload node: optional MIME type, optional inline body data
(`payload.body?.data`, flattened to one `Option` since only
presence-and-nonemptiness is observed), optional child parts.  `some []` is
a present-but-empty `parts` array, which is truthy in JS.  The base64+utf8
decoding (`Buffer.from(data, 'base64').toString('utf-8')`, a Node library
call) is a parameter `decode`. -/

/-- A node of the Gmail message payload tree. -/
inductive Payload : Type where
  | mk (mimeType : Option String) (bodyData : Option String) (parts : Option (List Payload))
deriving Repr

/-- The node's MIME type. -/
def Payload.mimeType : Payload → Option String
  | .mk m _ _ => m

/-- The node's inline body data (`payload.body?.data`). -/
def Payload.bodyData : Payload → Option String
  | .mk _ b _ => b

/-- The node's child parts. -/
def Payload.parts : Payload → Option (List Payload)
  | .mk _ _ p => p

/-- The inline data when `payload.body?.data` is truthy (present and
nonempty), else `none`. -/
def truthyData (p : Payload) : Option String :=
  match p.bodyData with
  | some d => if d = "" then none else some d
  | none => none

/-- Whether the node satisfies the loop's first guard
`part.mimeType === 'text/plain' && part.body?.data`. -/
def isPlainWithData (p : Payload) : Bool :=
  p.mimeType = some "text/plain" ∧ (truthyData p).isSome

/-- Whether the node satisfies the second guard's MIME-and-data part
`part.mimeType === 'text/html' && part.body?.data`. -/
def isHtmlWithData (p : Payload) : Bool :=
  p.mimeType = some "text/html" ∧ (truthyData p).isSome

mutual

/-- `extractBody` from `gmail.service.ts`: inline data decodes directly;
otherwise, when `payload.parts` is truthy, the sibling scan runs with
`body = ''`. -/
def extractBody (decode : String → String) : Payload → String
  | .mk _ bodyData parts =>
    match bodyData with
    | some d =>
      if d = "" then extractBodyParts decode parts else decode d
    | none => extractBodyParts decode parts

/-- The `else if (payload.parts)` dispatch of `extractBody`. -/
def extractBodyParts (decode : String → String) : Option (List Payload) → String
  | none => ""
  | some ps => extractBodyLoop decode ps ""

/-- The `for (const part of payload.parts)` loop of `extractBody`, with the
running `body` accumulator.  A `text/plain` child with data returns at once
(`break`); a `text/html` child with data is kept as fallback only while
`body` is empty; otherwise a child with a truthy `parts` array is recursed
into, its result overwriting `body` and breaking the loop when nonempty. -/
def extractBodyLoop (decode : String → String) : List Payload → String → String
  | [], body => body
  | p :: rest, body =>
    if isPlainWithData p then
      decode ((truthyData p).getD "")
    else if isHtmlWithData p ∧ body = "" then
      extractBodyLoop decode rest (decode ((truthyData p).getD ""))
    else
      match p.parts with
      | some _ =>
        let b := extractBody decode p
        if b = "" then extractBodyLoop decode rest b else b
      | none => extractBodyLoop decode rest body

end

mutual

/-- Whether a `text/plain` part with truthy data occurs anywhere in the
payload tree (the spec's phrasing of the plain-text preference). -/
def treeHasPlainWithData : Payload → Bool
  | .mk mt bd parts =>
    isPlainWithData (.mk mt bd parts) ||
      match parts with
      | some ps => listHasPlainWithData ps
      | none => false

/-- `treeHasPlainWithData` over a list of children. -/
def listHasPlainWithData : List Payload → Bool
  | [] => false
  | p :: rest => treeHasPlainWithData p || listHasPlainWithData rest

end

/-- The data of the first `text/plain` child with data in a list of parts
(direct children only). -/
def firstPlainData (ps : List Payload) : Option String :=
  (ps.find? isPlainWithData).bind truthyData

/-! ## User model serialization (`user.model.ts`, toJSON transform)

The Mongoose document is serialized to a plain JS object (a key-value list
in schema-path order), then the schema's `toJSON` transform sets
`id = _id.toString()` and deletes `_id`, `__v`, `googleAccessToken` and
`googleRefreshToken`. -/

/-- The values appearing in a serialized user object. -/
inductive JVal : Type where
  | str (s : String)
  | num (n : Int)
  | arr (ss : List String)
  | date (ms : Int)
  | oid (s : String)
deriving DecidableEq, Repr

/-- The role tag strings stored in the document. -/
def roleToString : Role → String
  | .user => "USER"
  | .admin => "ADMIN"

/-- The full Mongoose user document per the schema in `user.model.ts`:
`_id`, the declared paths (tokens optional), the `timestamps: true` pair,
and the version key `__v`. -/
structure UserDoc where
  mongoId : String
  email : String
  name : String
  timeZone : String
  roles : List Role
  googleAccessToken : Option String
  googleRefreshToken : Option String
  createdAt : Int
  updatedAt : Int
  version : Int
deriving DecidableEq, Repr

/-- JS property assignment `obj[k] = v`: overwrite in place if the key
exists, else append. -/
def jsSetKey (obj : List (String × JVal)) (k : String) (v : JVal) :
    List (String × JVal) :=
  if obj.any (fun p => p.1 = k) then
    obj.map (fun p => if p.1 = k then (k, v) else p)
  else obj ++ [(k, v)]

/-- JS `delete obj[k]`. -/
def jsDeleteKey (obj : List (String × JVal)) (k : String) : List (String × JVal) :=
  obj.filter (fun p => p.1 ≠ k)

/-- JS property read `obj[k]`. -/
def jsGetKey (obj : List (String × JVal)) (k : String) : Option JVal :=
  (obj.find? (fun p => p.1 = k)).map (fun p => p.2)

/-- `ObjectId.toString()`. -/
def oidToString : JVal → JVal
  | .oid s => .str s
  | v => v

/-- The plain object Mongoose hands to the `toJSON` transform, with keys in
schema-path order; absent optional paths contribute no key. -/
def mongooseRet (u : UserDoc) : List (String × JVal) :=
  [("_id", .oid u.mongoId), ("email", .str u.email), ("name", .str u.name),
    ("timeZone", .str u.timeZone), ("roles", .arr (u.roles.map roleToString))] ++
  (match u.googleAccessToken with
   | some t => [("googleAccessToken", .str t)]
   | none => []) ++
  (match u.googleRefreshToken with
   | some t => [("googleRefreshToken", .str t)]
   | none => []) ++
  [("createdAt", .date u.createdAt), ("updatedAt", .date u.updatedAt),
    ("__v", .num u.version)]

/-- The `toJSON` transform of `userSchema`: `ret.id = ret._id.toString()`,
then delete `_id`, `__v`, `googleAccessToken`, `googleRefreshToken`.
`none` is the TypeError the source would raise reading `toString` of a
missing `_id`. -/
def toJSONTransform (ret : List (String × JVal)) : Option (List (String × JVal)) :=
  match jsGetKey ret "_id" with
  | none => none
  | some idv =>
    let r1 := jsSetKey ret "id" (oidToString idv)
    let r2 := jsDeleteKey r1 "_id"
    let r3 := jsDeleteKey r2 "__v"
    let r4 := jsDeleteKey r3 "googleAccessToken"
    some (jsDeleteKey r4 "googleRefreshToken")

/-- Serialization of a user document: the Mongoose plain object passed
through the schema's `toJSON` transform. -/
def serializeUser (u : UserDoc) : Option (List (String × JVal)) :=
  toJSONTransform (mongooseRet u)

/-! ## Theorems: authorization gates (C1, C2) -/

/-- C1: for an authenticated request reaching `requireOwnershipOrRole(P, R)`:
a missing value for parameter `P` is denied 400 `{success:false,
message:'Invalid request'}`; otherwise the gate allows exactly when the
user's id equals the parameter value or the user's roles intersect `R`, and
denies 403 `{success:false, message:'Access denied'}` otherwise.  Ownership
alone suffices regardless of roles, and a bypass role alone suffices
regardless of ownership. -/
theorem requireOwnershipOrRole_gate_correct
    (paramName : String) (roles : List Role) (req : MWRequest) (user : IUser)
    (hu : req.user = some user) :
    (lookupParam req.params paramName = none →
      requireOwnershipOrRole paramName roles req =
        .deny 400 ⟨false, "Invalid request", none⟩) ∧
    (∀ v, lookupParam req.params paramName = some v → v ≠ "" →
      (user.id = v ∨ ∃ r ∈ user.roles, r ∈ roles) →
      requireOwnershipOrRole paramName roles req = .next) ∧
    (∀ v, lookupParam req.params paramName = some v → v ≠ "" →
      user.id ≠ v → (∀ r ∈ user.roles, r ∉ roles) →
      requireOwnershipOrRole paramName roles req =
        .deny 403 ⟨false, "Access denied", none⟩) := by
  refine ⟨?_, ?_, ?_⟩
  · intro hp
    simp [requireOwnershipOrRole, hu, hp]
  · intro v hp hv hallow
    simp only [requireOwnershipOrRole, hu, hp, if_neg hv]
    rw [if_pos]
    rcases hallow with h | ⟨r, hr, hrr⟩
    · exact Or.inl h
    · exact Or.inr (List.any_eq_true.mpr ⟨r, hr, List.elem_eq_true_of_mem hrr⟩)
  · intro v hp hv hid hroles
    simp only [requireOwnershipOrRole, hu, hp, if_neg hv]
    rw [if_neg]
    rintro (h | h)
    · exact hid h
    · rcases List.any_eq_true.mp h with ⟨r, hr, hrr⟩
      exact hroles r hr (List.mem_of_elem_eq_true hrr)

/-- Witness for C1: a concrete owner (id `u1`, role USER only, no bypass
role) requesting parameter value `u1` is allowed. -/
theorem requireOwnershipOrRole_gate_correct_witness :
    requireOwnershipOrRole "userId" [Role.admin]
      ⟨some ⟨"u1", "a@b.co", [Role.user], none, none⟩, true, [("userId", "u1")]⟩ =
      .next :=
  (requireOwnershipOrRole_gate_correct "userId" [Role.admin]
      ⟨some ⟨"u1", "a@b.co", [Role.user], none, none⟩, true, [("userId", "u1")]⟩
      ⟨"u1", "a@b.co", [Role.user], none, none⟩ rfl).2.1
    "u1" (by decide) (by decide) (Or.inl rfl)

/-- C2: a request with no user attached is denied 401 `{success:false,
message:'Authentication required'}` by `requireUser`, and the result of the
whole chain equals that denial whatever gates follow: the denial
short-circuits, no later gate is evaluated. -/
theorem requireUser_chain_short_circuits
    (req : MWRequest) (hu : req.user = none)
    (rest : List (MWRequest → GateResult)) :
    runChain (requireUser :: rest) req =
      .deny 401 ⟨false, "Authentication required", none⟩ := by
  have h : requireUser req = .deny 401 ⟨false, "Authentication required", none⟩ := by
    simp [requireUser, hu]
  simp [runChain, h]

/-- Witness for C2: the email-routes chain tail `requireConnectedGoogle`
after `requireUser`, on a concrete unauthenticated request. -/
theorem requireUser_chain_short_circuits_witness :
    runChain [requireUser, requireConnectedGoogle] ⟨none, false, []⟩ =
      .deny 401 ⟨false, "Authentication required", none⟩ :=
  requireUser_chain_short_circuits ⟨none, false, []⟩ rfl [requireConnectedGoogle]

/-! ## Theorems: error classification (C3) -/

/-- C3: any error message reaching the `getEmails` catch block through the
service's rewrapping is classified AUTH_EXPIRED (401, exact body) exactly
when it contains `invalid_grant` or `Token`; otherwise the response is the
500 fallback, never AUTH_EXPIRED.  In particular a remote `invalid_grant`
error still classifies as AUTH_EXPIRED after the
`Failed to fetch emails: ` rewrapping. -/
theorem getEmails_auth_expired_classification (remoteMsg : String) :
    ((strContains (wrapGetEmailsError remoteMsg) "invalid_grant" ||
        strContains (wrapGetEmailsError remoteMsg) "Token") = true →
      getEmailsRemoteErrorResponse remoteMsg =
        ⟨401, "Google authentication expired. Please re-authenticate.", none,
          some "AUTH_EXPIRED"⟩) ∧
    ((strContains (wrapGetEmailsError remoteMsg) "invalid_grant" ||
        strContains (wrapGetEmailsError remoteMsg) "Token") = false →
      (getEmailsRemoteErrorResponse remoteMsg).status = 500 ∧
      (getEmailsRemoteErrorResponse remoteMsg).code ≠ some "AUTH_EXPIRED") ∧
    getEmailsRemoteErrorResponse "invalid_grant" =
      ⟨401, "Google authentication expired. Please re-authenticate.", none,
        some "AUTH_EXPIRED"⟩ := by
  refine ⟨?_, ?_, ?_⟩
  · intro h
    simp [getEmailsRemoteErrorResponse, getEmailsCatch, h]
  · intro h
    simp [getEmailsRemoteErrorResponse, getEmailsCatch, h]
  · decide

/-- Witness for C3 at concrete messages: a remote `invalid_grant` error maps
to the AUTH_EXPIRED response; a plain `API Error` maps to a 500. -/
theorem getEmails_auth_expired_classification_witness :
    getEmailsRemoteErrorResponse "invalid_grant" =
      ⟨401, "Google authentication expired. Please re-authenticate.", none,
        some "AUTH_EXPIRED"⟩ ∧
    (getEmailsRemoteErrorResponse "API Error").status = 500 :=
  ⟨(getEmails_auth_expired_classification "invalid_grant").1 (by decide),
   ((getEmails_auth_expired_classification "API Error").2.1 (by decide)).1⟩

/-! ## Theorems: cross-field time filter validation (C4) -/

/-- C4: a present and valid `timeRange` with an absent `timeValue` is
rejected 400 with `timeValue is required when timeRange is specified`; a
present and valid `timeValue` with an absent `timeRange` is rejected 400
symmetrically; both absent validates with no time filter.  (The `maxResults`
parameter is assumed absent or valid, i.e. its own block does not reject
first.) -/
theorem getEmails_time_cross_field (q : RawEmailQuery) :
    (∀ tr m, parseTimeRangeParam q.timeRange = .ok (some tr) →
      q.timeValue = none →
      parseMaxResultsParam q.maxResults = .ok m →
      getEmailsParseFilters q =
        .error ⟨400, "timeValue is required when timeRange is specified", none, none⟩) ∧
    (∀ tv m, parseTimeValueParam q.timeValue = .ok (some tv) →
      q.timeRange = none →
      parseMaxResultsParam q.maxResults = .ok m →
      getEmailsParseFilters q =
        .error ⟨400, "timeRange is required when timeValue is specified", none, none⟩) ∧
    (∀ m, q.timeRange = none → q.timeValue = none →
      parseMaxResultsParam q.maxResults = .ok m →
      ∃ f, getEmailsParseFilters q = .ok f ∧ f.timeRange = none ∧ f.timeValue = none) := by
  refine ⟨?_, ?_, ?_⟩
  · intro tr m htr htv hm
    simp [getEmailsParseFilters, htr, htv, hm, parseTimeValueParam]
  · intro tv m htv htr hm
    simp [getEmailsParseFilters, htr, htv, hm, parseTimeRangeParam]
  · intro m htr htv hm
    refine ⟨⟨q.isRead.map (fun s => s == "true"), none, none, m⟩, ?_, rfl, rfl⟩
    simp [getEmailsParseFilters, htr, htv, hm, parseTimeRangeParam, parseTimeValueParam]

/-- Witness for C4 at concrete queries: `{timeRange:'days'}` alone rejects,
`{timeValue:'7'}` alone rejects, and the empty query validates with no time
filter. -/
theorem getEmails_time_cross_field_witness :
    getEmailsParseFilters ⟨none, some "days", none, none⟩ =
      .error ⟨400, "timeValue is required when timeRange is specified", none, none⟩ ∧
    getEmailsParseFilters ⟨none, none, some "7", none⟩ =
      .error ⟨400, "timeRange is required when timeValue is specified", none, none⟩ ∧
    (∃ f, getEmailsParseFilters ⟨none, none, none, none⟩ = .ok f ∧
      f.timeRange = none ∧ f.timeValue = none) :=
  ⟨(getEmails_time_cross_field ⟨none, some "days", none, none⟩).1
      TimeRange.days none (by decide) rfl rfl,
   (getEmails_time_cross_field ⟨none, none, some "7", none⟩).2.1
      7 none (by decide) rfl rfl,
   (getEmails_time_cross_field ⟨none, none, none, none⟩).2.2
      none rfl rfl rfl⟩

/-! ## Theorems: isRead parsing (C9) -/

/-- C9 is refuted: an `isRead` value other than the literals `true`/`false`
is not treated as absent; the controller sets `isRead = (value === 'true')`,
so `isRead=yes` produces a filter record with `isRead` present and `false`. -/
theorem isRead_non_literal_counterexample :
    getEmailsParseFilters ⟨some "yes", none, none, none⟩ =
      .ok ⟨some false, none, none, none⟩ ∧
    (some false : Option Bool) ≠ none := by
  exact ⟨by decide, by decide⟩

/-- C9 amended: whenever filter parsing succeeds, `isRead` is present in the
record iff the parameter was present, and its value is the comparison of the
raw value with the literal `true`: `true` yields `true`, every other value
(including `false`, `TRUE`, `yes`, `1`) yields `false`. -/
theorem isRead_parsing_amended (q : RawEmailQuery) (f : EmailFilters)
    (h : getEmailsParseFilters q = .ok f) :
    f.isRead = q.isRead.map (fun s => s == "true") := by
  simp only [getEmailsParseFilters] at h
  split at h
  · exact absurd h (by simp)
  · split at h
    · exact absurd h (by simp)
    · split at h
      · exact absurd h (by simp)
      · split at h
        · exact absurd h (by simp)
        · split at h
          · exact absurd h (by simp)
          · rw [Except.ok.injEq] at h
            subst h
            rfl

/-- Witness for C9's amended claim: `isRead=TRUE` parses successfully to a
record with `isRead = some false`. -/
theorem isRead_parsing_amended_witness :
    (some false : Option Bool) =
      (some "TRUE" : Option String).map (fun s => s == "true") :=
  isRead_parsing_amended ⟨some "TRUE", none, none, none⟩
    ⟨some false, none, none, none⟩ (by decide)

/-! ## Theorems: not-found classification for `GET /emails/:id` (C5) -/

/-- C5 is refuted: the service rewraps the remote `Not Found` error before
the controller classifies it, so the 404 body's `message` field is
`Failed to fetch email: Not Found`, not the remote error's original
message. -/
theorem getEmailById_notfound_message_counterexample :
    getEmailByIdRemoteErrorResponse "Not Found" =
      ⟨404, "Email not found", some "Failed to fetch email: Not Found", none⟩ ∧
    ("Failed to fetch email: Not Found" : String) ≠ "Not Found" := by
  exact ⟨by decide, by decide⟩

/-- C5 amended: when the controller-seen (rewrapped) message contains
`Not Found` or `404` and no token-invalidity signal, the endpoint responds
404 with error `Email not found` and `message` equal to the rewrapped
message `Failed to fetch email: ` ++ the remote message. -/
theorem getEmailById_notfound_classification (remoteMsg : String)
    (hnf : (strContains (wrapGetEmailByIdError remoteMsg) "Not Found" ||
        strContains (wrapGetEmailByIdError remoteMsg) "404") = true)
    (htk : (strContains (wrapGetEmailByIdError remoteMsg) "invalid_grant" ||
        strContains (wrapGetEmailByIdError remoteMsg) "Token") = false) :
    getEmailByIdRemoteErrorResponse remoteMsg =
      ⟨404, "Email not found", some (wrapGetEmailByIdError remoteMsg), none⟩ := by
  simp [getEmailByIdRemoteErrorResponse, getEmailByIdCatch, hnf, htk]

/-- Witness for C5's amended claim at the remote message `Not Found`. -/
theorem getEmailById_notfound_classification_witness :
    getEmailByIdRemoteErrorResponse "Not Found" =
      ⟨404, "Email not found", some (wrapGetEmailByIdError "Not Found"), none⟩ :=
  getEmailById_notfound_classification "Not Found" (by decide) (by decide)

/-! ## Theorems: body extraction plain-text preference (C6) -/

/-- C6 is refuted: the plain-text preference is not global across nesting
levels.  In a node whose first child is a nested multipart containing only a
`text/html` part with data and whose second child is a `text/plain` part
with data, the recursion into the first child returns the html text and
breaks the loop, so the html text wins although a plain part exists in the
tree. -/
theorem extractBody_nested_html_counterexample :
    treeHasPlainWithData
      (.mk (some "multipart/mixed") none (some
        [ .mk (some "multipart/alternative") none
            (some [.mk (some "text/html") (some "HTMLDATA") none]),
          .mk (some "text/plain") (some "PLAINDATA") none ])) = true ∧
    extractBody (fun s => s)
      (.mk (some "multipart/mixed") none (some
        [ .mk (some "multipart/alternative") none
            (some [.mk (some "text/html") (some "HTMLDATA") none]),
          .mk (some "text/plain") (some "PLAINDATA") none ])) = "HTMLDATA" ∧
    ("HTMLDATA" : String) ≠ "PLAINDATA" := by
  exact ⟨by rfl, by rfl, by decide⟩

/-- Helper for C6's amended claim: over a list of leaf children (no nested
`parts`), the sibling loop returns the decoded data of the first
`text/plain` child with data, whatever the accumulator holds. -/
theorem extractBodyLoop_leaf_firstPlain (decode : String → String)
    (ps : List Payload) (hleaf : ∀ p ∈ ps, p.parts = none)
    (d : String) (hd : firstPlainData ps = some d) :
    ∀ body, extractBodyLoop decode ps body = decode d := by
  induction ps with
  | nil => simp [firstPlainData] at hd
  | cons p rest ih =>
    intro body
    by_cases hp : isPlainWithData p
    · have hdata : truthyData p = some d := by
        simpa [firstPlainData, List.find?, hp] using hd
      simp [extractBodyLoop, hp, hdata]
    · have hrest : firstPlainData rest = some d := by
        simpa [firstPlainData, List.find?, hp] using hd
      have hleafp : p.parts = none := hleaf p (List.mem_cons_self p rest)
      have hleafrest : ∀ q ∈ rest, q.parts = none :=
        fun q hq => hleaf q (List.mem_cons_of_mem p hq)
      have ihr := ih hleafrest hrest
      by_cases hh : isHtmlWithData p ∧ body = ""
      · simp [extractBodyLoop, hp, hh, ihr]
      · simp [extractBodyLoop, hp, hh, hleafp, ihr]

/-- C6 amended: among the direct children of a node without inline data, if
all children are leaves (no nested `parts`), a `text/plain` child with data
wins over any `text/html` sibling regardless of order: the result is the
decode of the first `text/plain` child's data.  (Across nesting levels the
preference does not hold: a nonempty result recursed out of an earlier
nested sibling — even html — breaks the scan before a later plain sibling
is seen.) -/
theorem extractBody_leaf_sibling_plain_preference (decode : String → String)
    (mt : Option String) (ps : List Payload)
    (hleaf : ∀ p ∈ ps, p.parts = none)
    (d : String) (hd : firstPlainData ps = some d) :
    extractBody decode (.mk mt none (some ps)) = decode d := by
  have h := extractBodyLoop_leaf_firstPlain decode ps hleaf d hd ""
  simp [extractBody, extractBodyParts, h]

/-- Witness for C6's amended claim: an html-first-then-plain pair of leaf
children yields the plain text. -/
theorem extractBody_leaf_sibling_plain_preference_witness :
    extractBody (fun s => s)
      (.mk (some "multipart/alternative") none (some
        [ .mk (some "text/html") (some "HTMLDATA") none,
          .mk (some "text/plain") (some "PLAINDATA") none ])) = "PLAINDATA" :=
  extractBody_leaf_sibling_plain_preference (fun s => s)
    (some "multipart/alternative")
    [ .mk (some "text/html") (some "HTMLDATA") none,
      .mk (some "text/plain") (some "PLAINDATA") none ]
    (by
      intro p hp
      simp only [List.mem_cons, List.not_mem_nil, or_false] at hp
      rcases hp with rfl | rfl <;> rfl)
    "PLAINDATA" (by rfl)

/-! ## Theorems: query synthesis (C7) -/

/-- C7: the synthesized query equals the space-join of the applicable
clauses: `is:read`/`is:unread` from `isRead`, and `after:YYYY/MM/DD` at the
local calendar date of the cutoff `now − count × unit-duration` with
hours = 3600 s, days = 24 h, weeks = 7 d, months = 30 d, when both time
fields are set.  With no applicable filter the query is empty.  The
hypothesis `timeValue ≠ some 0` is the Filter Record invariant (the
controller stores only positive values).  Determinism in (filter, current
time) holds because `buildQuery` is a pure function of the filter, the
clock value and the runtime's local-calendar map. -/
theorem buildQuery_characterization (localDate : Int → SimpleDate)
    (nowMs : Int) (f : EmailFilters) (hv : f.timeValue ≠ some 0) :
    buildQuery localDate nowMs f =
      String.intercalate " " (specReadClause f ++ specTimeClause localDate nowMs f) := by
  rcases f with ⟨ir, tr, tv, mr⟩
  rcases tr with _ | r <;> rcases tv with _ | v <;> rcases ir with _ | b
  all_goals try cases b
  all_goals try cases r
  all_goals
    simp_all [buildQuery, specReadClause, specTimeClause, specUnitDurationSec,
      mul_assoc]

/-- Witness for C7: a read filter plus a 2-day window at a concrete clock
and local-calendar map. -/
theorem buildQuery_characterization_witness :
    buildQuery (fun _ => ⟨2024, 3, 7⟩) 0
        ⟨some true, some TimeRange.days, some 2, none⟩ =
      String.intercalate " "
        (specReadClause ⟨some true, some TimeRange.days, some 2, none⟩ ++
          specTimeClause (fun _ => ⟨2024, 3, 7⟩) 0
            ⟨some true, some TimeRange.days, some 2, none⟩) :=
  buildQuery_characterization (fun _ => ⟨2024, 3, 7⟩) 0
    ⟨some true, some TimeRange.days, some 2, none⟩ (by decide)

/-! ## Theorems: header extraction (C8) -/

/-- C8 is refuted on two points: with no To header, the To list is `[""]`
(splitting the empty string yields one empty entry), not the empty list;
and a present but unparsable Date header yields the JS Invalid Date, not
the current time. -/
theorem parseHeaders_fallback_counterexample :
    parseHeaders (fun _ => none) 0 [⟨"Date", some "not a date"⟩] =
      ⟨"", "", [""], .invalid⟩ ∧
    ([""] : List String) ≠ ([] : List String) ∧
    JSDate.invalid ≠ JSDate.valid 0 := by
  exact ⟨by rfl, by decide, by decide⟩

/-- C8 amended: Subject and From are the case-insensitive first matching
header values (empty string when absent); To is the To header value split
on commas with entries trimmed, which is `[""]` when the To header is
absent; Date is the parsed Date header value, the current time when the
header is absent (or empty), and the Invalid Date when present but
unparsable. -/
theorem parseHeaders_characterization (pd : String → Option Int)
    (nowMs : Int) (hs : List EmailHeader) :
    ((parseHeaders pd nowMs hs).subject = getHeader hs "Subject") ∧
    ((parseHeaders pd nowMs hs).fromAddr = getHeader hs "From") ∧
    ((parseHeaders pd nowMs hs).toAddrs =
      (jsSplitComma (getHeader hs "To")).map jsTrim) ∧
    (hs.find? (fun h => jsToLower h.name = "to") = none →
      (parseHeaders pd nowMs hs).toAddrs = [""]) ∧
    (getHeader hs "Date" = "" → (parseHeaders pd nowMs hs).date = .valid nowMs) ∧
    (∀ s t, getHeader hs "Date" = s → s ≠ "" → pd s = some t →
      (parseHeaders pd nowMs hs).date = .valid t) ∧
    (∀ s, getHeader hs "Date" = s → s ≠ "" → pd s = none →
      (parseHeaders pd nowMs hs).date = .invalid) := by
  refine ⟨rfl, rfl, rfl, ?_, ?_, ?_, ?_⟩
  · intro hfind
    have hto : getHeader hs "To" = "" := by
      simp only [getHeader]
      rw [show jsToLower "To" = "to" from rfl, hfind]
    show (jsSplitComma (getHeader hs "To")).map jsTrim = [""]
    rw [hto]
    rfl
  · intro hd
    simp [parseHeaders, hd]
  · intro s t hs0 hne hpd
    simp [parseHeaders, hs0, hne, hpd]
  · intro s hs0 hne hpd
    simp [parseHeaders, hs0, hne, hpd]

/-- Witness for C8's amended claim: a single unparsable Date header and no
To header give `toAddrs = [""]` and the Invalid Date. -/
theorem parseHeaders_characterization_witness :
    (parseHeaders (fun _ => none) 5 [⟨"Date", some "xyz"⟩]).toAddrs = [""] ∧
    (parseHeaders (fun _ => none) 5 [⟨"Date", some "xyz"⟩]).date = .invalid :=
  ⟨(parseHeaders_characterization (fun _ => none) 5 [⟨"Date", some "xyz"⟩]).2.2.2.1
      (by rfl),
   (parseHeaders_characterization (fun _ => none) 5 [⟨"Date", some "xyz"⟩]).2.2.2.2.2.2
      "xyz" rfl (by decide) rfl⟩

/-! ## Theorems: user serialization hides credentials (C10) -/

/-- Normal form of `serializeUser`: whatever the token fields, the
serialized object is the token-free, `_id`/`__v`-free key list with `id`
appended. -/
theorem serializeUser_canonical (u : UserDoc) :
    serializeUser u = some
      [("email", .str u.email), ("name", .str u.name),
        ("timeZone", .str u.timeZone), ("roles", .arr (u.roles.map roleToString)),
        ("createdAt", .date u.createdAt), ("updatedAt", .date u.updatedAt),
        ("id", .str u.mongoId)] := by
  rcases u with ⟨i, e, n, tz, r, ga, gr, ca, ua, ver⟩
  rcases ga with _ | t1 <;> rcases gr with _ | t2 <;>
    simp [serializeUser, toJSONTransform, mongooseRet, jsSetKey, jsDeleteKey,
      jsGetKey, oidToString]

/-- C10: user documents agreeing on everything but the Google token fields
serialize identically; no serialized user object carries a
`googleAccessToken`, `googleRefreshToken`, `_id` or `__v` key; and each
carries `id` bound to the string form of `_id`. -/
theorem userToJSON_hides_google_tokens :
    (∀ u1 u2 : UserDoc,
      u1.mongoId = u2.mongoId → u1.email = u2.email → u1.name = u2.name →
      u1.timeZone = u2.timeZone → u1.roles = u2.roles →
      u1.createdAt = u2.createdAt → u1.updatedAt = u2.updatedAt →
      u1.version = u2.version →
      serializeUser u1 = serializeUser u2) ∧
    (∀ u ret, serializeUser u = some ret →
      (∀ kv ∈ ret, kv.1 ≠ "googleAccessToken" ∧ kv.1 ≠ "googleRefreshToken" ∧
        kv.1 ≠ "_id" ∧ kv.1 ≠ "__v") ∧
      jsGetKey ret "id" = some (.str u.mongoId)) := by
  constructor
  · intro u1 u2 h1 h2 h3 h4 h5 h6 h7 h8
    rw [serializeUser_canonical, serializeUser_canonical, h1, h2, h3, h4, h5, h6, h7]
  · intro u ret h
    rw [serializeUser_canonical] at h
    have hret := (Option.some.injEq _ _).mp h
    subst hret
    constructor
    · intro kv hkv
      simp only [List.mem_cons, List.not_mem_nil, or_false] at hkv
      rcases hkv with rfl | rfl | rfl | rfl | rfl | rfl | rfl <;> simp
    · rfl

/-- Witness for C10: two concrete documents differing only in the token
fields serialize to the same object, whose `id` key holds the `_id`
string. -/
theorem userToJSON_hides_google_tokens_witness :
    serializeUser ⟨"id1", "e@x.co", "N", "UTC", [Role.user], some "tokA",
        some "tokR", 1, 2, 0⟩ =
      serializeUser ⟨"id1", "e@x.co", "N", "UTC", [Role.user], none, none, 1, 2, 0⟩ ∧
    jsGetKey [("email", JVal.str "e@x.co"), ("name", .str "N"),
        ("timeZone", .str "UTC"), ("roles", .arr ["USER"]),
        ("createdAt", .date 1), ("updatedAt", .date 2), ("id", .str "id1")] "id" =
      some (.str "id1") :=
  ⟨userToJSON_hides_google_tokens.1 _ _ rfl rfl rfl rfl rfl rfl rfl rfl,
   (userToJSON_hides_google_tokens.2
      ⟨"id1", "e@x.co", "N", "UTC", [Role.user], some "tokA", some "tokR", 1, 2, 0⟩
      [("email", JVal.str "e@x.co"), ("name", .str "N"), ("timeZone", .str "UTC"),
        ("roles", .arr ["USER"]), ("createdAt", .date 1), ("updatedAt", .date 2),
        ("id", .str "id1")] (by decide)).2⟩
